import Mathlib

/-!
Shallow embedding of the coin-purse round-orchestration code.

Sources embedded:
* `src/rgs/state.ts` — the round state machine (`setGameState`, gate
  predicates) and the RGS operations `executeGameRound` / `finalizeRound`.
* `src/game/gameRoundHelper.ts` — the round orchestrator `handleGameRound`.

External collaborators (the network client in `api.ts`, whose source is not
part of the repository snapshot) are modelled by passing their outcomes as
explicit `Except` arguments; the error classifier `isActiveBetError` and the
completion collaborator `onRest` are modelled from the spec, as noted on
their definitions.  JavaScript `number` values are modelled as rationals
(`ℚ`); `undefined`/`null` fields as `Option`.
-/

namespace CoinPurse

/-- The `GameState` union type from `src/rgs/types` as used by `state.ts`:
`"rest" | "playing" | "awaiting_pick" | "resolving"`. -/
inductive GameState where
  | rest
  | playing
  | awaiting_pick
  | resolving
deriving DecidableEq, Repr

/-- The `round` object inside a `PlayResponse`: the fields the core reads are
`payoutMultiplier` (a number that may be absent) and `state` (an opaque
server token that may be absent, only logged). -/
structure GameRound where
  payoutMultiplier : Option ℚ
  state : Option String
deriving DecidableEq, Repr

/-- `PlayResponse`: the orchestration only dereferences `response.round`
(optionally), so the embedding keeps exactly that. -/
structure PlayResponse where
  round : Option GameRound
deriving DecidableEq, Repr

/-- The `balance` object of an `EndRoundResponse`: `balance.amount`, which
`finalizeRound` compares against `null` before transitioning. -/
structure BalanceAmount where
  amount : Option ℚ
deriving DecidableEq, Repr

/-- `EndRoundResponse`: the finalize confirmation; the core reads only
`confirmation.balance.amount`. -/
structure EndRoundResponse where
  balance : BalanceAmount
deriving DecidableEq, Repr

/-- The module-level mutable session of `src/rgs/state.ts`: `gamestate`,
`response`, `endRoundResponse`, `balance`, `lastWin`. -/
structure RGSState where
  gamestate : GameState
  response : Option PlayResponse
  endRoundResponse : Option EndRoundResponse
  balance : ℚ
  lastWin : ℚ
deriving DecidableEq, Repr

/-- The initial module state of `state.ts`: `gamestate = "rest"`,
`response = null`, `endRoundResponse = null`, `balance = 1000`,
`lastWin = 0`. -/
def initialState : RGSState :=
  { gamestate := .rest
    response := none
    endRoundResponse := none
    balance := 1000
    lastWin := 0 }

/-- The `validTransitions` table of `setGameState` (state.ts lines 37-42). -/
def validTransitions : GameState → List GameState
  | .rest => [.playing]
  | .playing => [.awaiting_pick, .rest]
  | .awaiting_pick => [.resolving]
  | .resolving => [.rest]

/-- `setGameState` (state.ts lines 36-53): if the requested state is not in
the transition table for the current state it warns and returns (the session
is unchanged; nothing is thrown — the embedding is a total function);
otherwise it assigns the new state. -/
def setGameState (s : RGSState) (newState : GameState) : RGSState :=
  if newState ∈ validTransitions s.gamestate then
    { s with gamestate := newState }
  else
    s

/-- `getGameState` (state.ts lines 15-17). -/
def getGameState (s : RGSState) : GameState :=
  s.gamestate

/-- `canAdjustBet` (state.ts lines 56-58). -/
def canAdjustBet (s : RGSState) : Bool :=
  decide (s.gamestate = .rest)

/-- `canStartPlay` (state.ts lines 60-62). -/
def canStartPlay (s : RGSState) : Bool :=
  decide (s.gamestate = .rest)

/-- `canPickCup` (state.ts lines 64-66). -/
def canPickCup (s : RGSState) : Bool :=
  decide (s.gamestate = .awaiting_pick)

/-- `setAwaitingPick` (state.ts lines 143-145). -/
def setAwaitingPick (s : RGSState) : RGSState :=
  setGameState s .awaiting_pick

/-- `startResolving` (state.ts lines 148-150). -/
def startResolving (s : RGSState) : RGSState :=
  setGameState s .resolving

/-- `handleLoss` (state.ts lines 153-155): transition directly to rest
without calling `finalizeRound`. -/
def handleLoss (s : RGSState) : RGSState :=
  setGameState s .rest

/-- The edge relation of the transition table in §4.1 of the spec:
`Edge a b` holds when `a -> b` is a row of `validTransitions`. -/
def Edge (a b : GameState) : Prop :=
  b ∈ validTransitions a

instance : DecidableRel Edge := fun a b =>
  inferInstanceAs (Decidable (b ∈ validTransitions a))

/-- A phase is reachable when some chain of table edges leads to it from the
initial phase `rest`. -/
def ReachablePhase (g : GameState) : Prop :=
  Relation.ReflTransGen Edge .rest g

/-- Folding a whole sequence of `setGameState` requests over the initial
session state. -/
def applyRequests (reqs : List GameState) : RGSState :=
  reqs.foldl setGameState initialState

/-- Errors produced by the external Session Client (`api.ts`, not part of
the repository snapshot): either the server-side "active bet already open"
condition, or some other opaque server/network error. -/
inductive ApiError where
  | activeBet
  | other (code : Nat)
deriving DecidableEq, Repr

/-- Modelled from the spec: `isActiveBetError` lives in `api.ts`, which is
missing from the snapshot; §4.4 specifies it as a pure predicate over an
error value returning true iff the error indicates the specific "a round is
already open on the server" condition. -/
def isActiveBetError : ApiError → Bool
  | .activeBet => true
  | .other _ => false

/-- Errors observable from `executeGameRound` / `finalizeRound`: either the
locally thrown `Error("Cannot start play from state: ...")` or a re-thrown
Session Client error. -/
inductive GameError where
  | invalidState (from_ : GameState)
  | api (e : ApiError)
deriving DecidableEq, Repr

/-- `isActiveBetError` lifted to the errors `executeGameRound` can throw:
the locally thrown invalid-state `Error` is never classified as an
active-bet error. -/
def isActiveBetGameError : GameError → Bool
  | .api e => isActiveBetError e
  | .invalidState _ => false

/-- The `lastWin` computation of state.ts lines 99-103: when
`playResponse?.round?.payoutMultiplier` is present (zero included),
`lastWin = payoutMultiplier * betAmount`; otherwise `0`. -/
def lastWinOf (pr : PlayResponse) (betAmount : ℚ) : ℚ :=
  match pr.round with
  | some r =>
      match r.payoutMultiplier with
      | some m => m * betAmount
      | none => 0
  | none => 0

/-- The tail of `executeGameRound` after the optimistic deduction and the
`rest -> playing` transition (state.ts lines 94-120): consume the outcome
`net` of the Session Client's `playRound` call.  On success, record the
response, clear `endRoundResponse`, and set `lastWin`.  On failure, the
`catch` block re-throws an active-bet error with the state untouched, and
resets the phase to `rest` before re-throwing anything else. -/
def resumeRound (s1 : RGSState) (betAmount : ℚ)
    (net : Except ApiError PlayResponse) : RGSState × Except GameError PlayResponse :=
  match net with
  | .error e =>
      if isActiveBetError e then
        (s1, .error (.api e))
      else
        (setGameState s1 .rest, .error (.api e))
  | .ok pr =>
      ({ s1 with
          response := some pr
          endRoundResponse := none
          lastWin := lastWinOf pr betAmount },
        .ok pr)

/-- `executeGameRound` (state.ts lines 81-121).  The `playRound` network
call is an external collaborator; its outcome is the argument `net`.  If
`canStartPlay()` fails, the function throws an invalid-state `Error`; that
error reaches the `catch` block, is not an active-bet error, so the phase is
reset towards `rest` (a no-op where the table forbids it) and the error is
re-thrown — nothing is deducted.  Otherwise the bet is deducted from the
balance and the phase moves `rest -> playing` before the network outcome is
consumed by `resumeRound`. -/
def executeGameRound (s : RGSState) (betAmount : ℚ)
    (net : Except ApiError PlayResponse) : RGSState × Except GameError PlayResponse :=
  if canStartPlay s then
    resumeRound (setGameState { s with balance := s.balance - betAmount } .playing)
      betAmount net
  else
    (setGameState s .rest, .error (.invalidState s.gamestate))

/-- `finalizeRound` (state.ts lines 124-140).  The `endRound` network call
is an external collaborator; its outcome is the argument `net`.  On success
the local balance is overwritten with `confirmation.balance.amount /
1000000` (JavaScript `null / 1000000` is `0`), the confirmation is stored,
and — only when the confirmed amount is non-null — `setGameState("rest")`
is requested.  On failure the error is re-thrown and the session is left
unchanged. -/
def finalizeRound (s : RGSState)
    (net : Except ApiError EndRoundResponse) : RGSState × Except GameError EndRoundResponse :=
  match net with
  | .error e => (s, .error (.api e))
  | .ok conf =>
      let newBalance : ℚ :=
        match conf.balance.amount with
        | some a => a / 1000000
        | none => 0
      let s1 := { s with balance := newBalance, endRoundResponse := some conf }
      let s2 := if conf.balance.amount.isSome then setGameState s1 .rest else s1
      (s2, .ok conf)

/-- Observable effects emitted by `handleGameRound` towards its external
collaborators (animation engine, balance display, win modal), in the order
the code awaits them. -/
inductive Event where
  | liftCup (i : Nat)
  | lowerCup (i : Nat)
  | showDiamond (i : Nat)
  | hideDiamond
  | finalizeCall
  | balanceUpdate
  | showWin (amount : ℚ)
deriving DecidableEq, Repr

/-- The inputs `handleGameRound` consumes from its environment: the option
flags, the outcome of the `playRound` network call, the index the player
taps, the stream of `Math.floor(Math.random() * 3)` draws consumed by the
loss-path resampling loop (a finite prefix of it), the outcome of the
`endRound` network call, and whether a `showWinModal` callback was
provided. -/
structure RoundInputs where
  skipAnimation : Bool
  forceEndRound : Bool
  netStart : Except ApiError PlayResponse
  pickIdx : Nat
  draws : List Nat
  netEnd : Except ApiError EndRoundResponse
  hasShowWinModal : Bool
deriving Repr

/-- The outcome of one `handleGameRound` run that did not re-throw: the
events emitted, and the final session state when the pick-handler promise
resolved (`none` when the run never completes — the finalize call threw
inside the tap handler, or the resampling loop never produced a different
index). -/
structure RoundOutcome where
  events : List Event
  final : Option RGSState
deriving DecidableEq, Repr

/-- The win test of gameRoundHelper.ts lines 141-145:
`playResponse && playResponse.round && playResponse.round.payoutMultiplier > 0`
(an absent multiplier compares as false). -/
def isWin : Option PlayResponse → Bool
  | none => false
  | some pr =>
      match pr.round with
      | none => false
      | some r =>
          match r.payoutMultiplier with
          | none => false
          | some m => decide (0 < m)

/-- Modelled from the spec: the `onRest` completion collaborator passed
into `handleGameRound` is constructed by caller code that is not part of
the repository snapshot.  §4.2 step 6 specifies round completion as
"Transition to `Rest` ... and notify the completion collaborator", and
`state.ts` exports `handleLoss` ("transition directly to rest without
calling finalizeRound") for exactly this; the model therefore has the
collaborator request the `rest` transition on the session (a no-op when
the session is already at `rest`). -/
def onRest (s : RGSState) : RGSState :=
  setGameState s .rest

/-- The rejection-sampling loop of gameRoundHelper.ts lines 175-176:
`let otherIdx = Math.floor(Math.random() * 3); while (otherIdx === idx)
otherIdx = Math.floor(Math.random() * 3);` — i.e. the first draw of the
random stream that differs from `idx`; `none` when the supplied finite
prefix of the stream never differs (the loop is still running). -/
def pickOtherCup (idx : Nat) (draws : List Nat) : Option Nat :=
  draws.find? (fun d => d != idx)

/-- Step 1 of `handleGameRound` (gameRoundHelper.ts lines 64-78): unless
`skipAnimation` is set, run `executeGameRound(1)`; an error classified as
active-bet sets the `activeBetError` flag and is swallowed, any other
error is re-thrown.  Returns the session state as of the pick phase, the
recorded `playResponse`, and the `activeBetError` flag. -/
def startStage (s : RGSState) (inp : RoundInputs) :
    Except GameError (RGSState × Option PlayResponse × Bool) :=
  if inp.skipAnimation then
    .ok (s, none, false)
  else
    match executeGameRound s 1 inp.netStart with
    | (s1, .ok pr) => .ok (s1, some pr, false)
    | (s1, .error e) =>
        if isActiveBetGameError e then .ok (s1, none, true) else .error e

/-- The body of the accepted `pointertap` handler plus the trailing
`onRest()` (gameRoundHelper.ts lines 111-200), given the session state and
flags as of the pick: the recovery/forceEndRound branch finalizes with no
animation; the win branch lifts the picked cup, reveals the diamond there,
lowers it, finalizes, updates the balance and (when provided) shows the
win modal with `getLastWin()`; the loss branch lifts and lowers the picked
cup, then reveals the diamond under the resampled other cup, and never
finalizes.  A finalize that throws inside the handler leaves the promise
unresolved (`final = none`), as does a resampling loop that never exits. -/
def pickStage (s1 : RGSState) (playResponse : Option PlayResponse)
    (activeBetError : Bool) (inp : RoundInputs) : RoundOutcome :=
  if activeBetError || inp.forceEndRound then
    match finalizeRound s1 inp.netEnd with
    | (s2, .ok _) => ⟨[.finalizeCall, .balanceUpdate], some (onRest s2)⟩
    | (_, .error _) => ⟨[.finalizeCall], none⟩
  else
    let idx := inp.pickIdx
    if isWin playResponse then
      match finalizeRound s1 inp.netEnd with
      | (s2, .ok _) =>
          ⟨[.liftCup idx, .showDiamond idx, .lowerCup idx, .hideDiamond,
              .finalizeCall, .balanceUpdate]
            ++ (if inp.hasShowWinModal && isWin playResponse
                then [.showWin s2.lastWin] else []),
            some (onRest s2)⟩
      | (_, .error _) =>
          ⟨[.liftCup idx, .showDiamond idx, .lowerCup idx, .hideDiamond,
              .finalizeCall], none⟩
    else
      match pickOtherCup idx inp.draws with
      | none => ⟨[.liftCup idx, .lowerCup idx], none⟩
      | some j =>
          ⟨[.liftCup idx, .lowerCup idx, .liftCup j, .showDiamond j,
              .lowerCup j, .hideDiamond],
            some (onRest s1)⟩

/-- `handleGameRound` (gameRoundHelper.ts lines 40-201): the start stage
followed, once the player's tap at `pickIdx` is accepted, by the pick
stage.  A non-active-bet start error propagates to the caller. -/
def handleGameRound (s : RGSState) (inp : RoundInputs) :
    Except GameError RoundOutcome :=
  match startStage s inp with
  | .error e => .error e
  | .ok (s1, playResponse, activeBetError) =>
      .ok (pickStage s1 playResponse activeBetError inp)

/-- One `pointertap` reaction (gameRoundHelper.ts lines 111-113): the
handler returns immediately when a choice is already recorded, otherwise
it records the tapped index — synchronously, before any `await` in the
handler body.  Returns the new recorded choice and whether this tap was
accepted. -/
def tapStep (chosen : Option Nat) (idx : Nat) : Option Nat × Bool :=
  match chosen with
  | some c => (some c, false)
  | none => (some idx, true)

/-- Run a whole sequence of tap inputs through the guard, starting from no
recorded choice; returns the final recorded choice and how many taps were
accepted.  Because the JavaScript event loop runs each `pointertap`
reaction to its first suspension atomically, and the guard and the
assignment `chosenIdx = idx` both precede every `await`, each tap is one
atomic `tapStep`. -/
def runTaps (taps : List Nat) : Option Nat × Nat :=
  taps.foldl
    (fun p idx =>
      let r := tapStep p.1 idx
      (r.1, p.2 + (if r.2 then 1 else 0)))
    (none, 0)

theorem setGameState_gamestate (s : RGSState) (n : GameState) :
    (setGameState s n).gamestate = n ∨ (setGameState s n).gamestate = s.gamestate := by
  unfold setGameState
  by_cases h : n ∈ validTransitions s.gamestate <;> simp [h]

theorem setGameState_reachable (s : RGSState) (n : GameState)
    (hs : ReachablePhase s.gamestate) :
    ReachablePhase (setGameState s n).gamestate := by
  unfold setGameState
  by_cases h : n ∈ validTransitions s.gamestate
  · simp only [h, if_pos]
    exact Relation.ReflTransGen.tail hs h
  · simp only [h, if_neg, not_false_iff]
    exact hs

theorem foldl_setGameState_reachable (reqs : List GameState) (s : RGSState)
    (hs : ReachablePhase s.gamestate) :
    ReachablePhase (reqs.foldl setGameState s).gamestate := by
  induction reqs generalizing s with
  | nil => exact hs
  | cons r rs ih => exact ih _ (setGameState_reachable s r hs)

/-- C1. Starting from the initial phase `rest`, every sequence of
requested transitions via `setGameState` keeps the current phase inside the
set of phases reachable through the table
`rest -> playing`, `playing -> awaiting_pick | rest`,
`awaiting_pick -> resolving`, `resolving -> rest`; and any request not in
the table leaves the whole session unchanged (`setGameState` is a total
function, so nothing is thrown). -/
theorem c1_phase_transitions :
    (∀ reqs : List GameState, ReachablePhase (applyRequests reqs).gamestate)
    ∧ (∀ (s : RGSState) (n : GameState),
        n ∉ validTransitions s.gamestate → setGameState s n = s) := by
  constructor
  · intro reqs
    exact foldl_setGameState_reachable reqs initialState Relation.ReflTransGen.refl
  · intro s n h
    unfold setGameState
    simp [h]

/-- Witness for C1 at a concrete input: from `rest`, the illegal request
`resolving` leaves the session unchanged, and the request sequence
`[playing, awaiting_pick, resolving, rest]` stays within the reachable
phases. -/
theorem c1_phase_transitions_witness :
    setGameState initialState .resolving = initialState
    ∧ ReachablePhase (applyRequests [.playing, .awaiting_pick, .resolving, .rest]).gamestate := by
  refine ⟨c1_phase_transitions.2 initialState .resolving (by decide), ?_⟩
  exact c1_phase_transitions.1 [.playing, .awaiting_pick, .resolving, .rest]

theorem executeGameRound_rest (s : RGSState) (betAmount : ℚ)
    (net : Except ApiError PlayResponse) (hs : s.gamestate = .rest) :
    executeGameRound s betAmount net
      = resumeRound
          { s with balance := s.balance - betAmount, gamestate := .playing }
          betAmount net := by
  unfold executeGameRound canStartPlay setGameState
  simp [hs, validTransitions]

/-- C2. A bet amount is deducted from the local balance at most once
per round, exactly at the `rest -> playing` transition: if the phase is not
`rest`, `executeGameRound` fails with the invalid-state error and deducts
nothing; if the phase is `rest`, it deducts exactly `betAmount` and sets
the phase to `playing` before the network call — i.e. the whole call
factors through `resumeRound` applied to the deducted, `playing` state, so
the network outcome is consumed only after deduction and transition, and
the resulting balance is `s.balance - betAmount` whatever the network
outcome. -/
theorem c2_single_deduction (s : RGSState) (betAmount : ℚ)
    (net : Except ApiError PlayResponse) :
    (s.gamestate ≠ .rest →
      (executeGameRound s betAmount net).2 = .error (.invalidState s.gamestate)
      ∧ (executeGameRound s betAmount net).1.balance = s.balance)
    ∧ (s.gamestate = .rest →
      executeGameRound s betAmount net
        = resumeRound
            { s with balance := s.balance - betAmount, gamestate := .playing }
            betAmount net
      ∧ (executeGameRound s betAmount net).1.balance = s.balance - betAmount
      ∧ (∀ pr, net = .ok pr → (executeGameRound s betAmount net).1.gamestate = .playing)) := by
  constructor
  · intro h
    have hc : canStartPlay s = false := by simp [canStartPlay, h]
    refine ⟨by simp [executeGameRound, hc], ?_⟩
    simp only [executeGameRound, hc, Bool.false_eq_true, if_neg, not_false_iff]
    unfold setGameState
    by_cases hr : GameState.rest ∈ validTransitions s.gamestate <;> simp [hr]
  · intro h
    have hfact := executeGameRound_rest s betAmount net h
    refine ⟨hfact, ?_, ?_⟩
    · rw [hfact]
      unfold resumeRound
      match net with
      | .error e =>
          by_cases ha : isActiveBetError e
          · simp [ha]
          · simp only [ha, Bool.false_eq_true, if_neg, not_false_iff]
            unfold setGameState
            simp [validTransitions]
      | .ok pr => simp
    · intro pr hnet
      rw [hfact, hnet]
      unfold resumeRound
      simp

/-- Witness for C2 at concrete inputs: from a `playing` phase nothing is
deducted and the invalid-state error is thrown; from the initial `rest`
state with bet `1` and a successful network call, the balance drops from
`1000` to `999` and the phase is `playing`. -/
theorem c2_single_deduction_witness :
    ((executeGameRound { initialState with gamestate := .playing } 1
        (.ok { round := none })).1.balance = 1000
      ∧ (executeGameRound { initialState with gamestate := .playing } 1
          (.ok { round := none })).2 = .error (.invalidState .playing))
    ∧ ((executeGameRound initialState 1 (.ok { round := none })).1.balance = 999
      ∧ (executeGameRound initialState 1 (.ok { round := none })).1.gamestate = .playing) := by
  have h1 := (c2_single_deduction { initialState with gamestate := .playing } 1
    (.ok { round := none })).1 (by decide)
  have h2 := (c2_single_deduction initialState 1 (.ok { round := none })).2 rfl
  refine ⟨⟨h1.2, h1.1⟩, ?_, h2.2.2 { round := none } rfl⟩
  rw [h2.2.1]
  norm_num [initialState]

/-- C6. If the start-round call fails with any error not classified as
active-bet, `executeGameRound` resets the phase to `rest` and re-throws the
error to the caller: the error appears in the result, not swallowed. -/
theorem c6_fatal_error_resets (s : RGSState) (betAmount : ℚ) (e : ApiError)
    (hs : s.gamestate = .rest) (he : e ≠ .activeBet) :
    (executeGameRound s betAmount (.error e)).1.gamestate = .rest
    ∧ (executeGameRound s betAmount (.error e)).2 = .error (.api e) := by
  rw [executeGameRound_rest s betAmount (.error e) hs]
  have ha : isActiveBetError e = false := by
    cases e with
    | activeBet => exact absurd rfl he
    | other code => rfl
  unfold resumeRound
  simp only [ha, Bool.false_eq_true, if_neg, not_false_iff]
  refine ⟨?_, by trivial⟩
  unfold setGameState
  simp [validTransitions]

/-- Witness for C6 at a concrete input: a network error with code `7` from
the initial state leaves the phase at `rest` and surfaces the error. -/
theorem c6_fatal_error_resets_witness :
    (executeGameRound initialState 1 (.error (.other 7))).1.gamestate = .rest
    ∧ (executeGameRound initialState 1 (.error (.other 7))).2
        = .error (.api (.other 7)) :=
  c6_fatal_error_resets initialState 1 (.other 7) rfl (by decide)

/-- C8, counterexample. The claim says `finalizeRound` on success
transitions the phase to `rest`; but `setGameState("rest")` is rejected by
the transition table when the current phase is `awaiting_pick`
(`awaiting_pick -> rest` is not an edge), so at this concrete input the
call succeeds, overwrites the balance, and leaves the phase at
`awaiting_pick`, not `rest`. -/
theorem c8_finalize_counterexample :
    (finalizeRound { initialState with gamestate := .awaiting_pick }
        (.ok { balance := { amount := some 500000000 } })).2
      = .ok { balance := { amount := some 500000000 } }
    ∧ (finalizeRound { initialState with gamestate := .awaiting_pick }
        (.ok { balance := { amount := some 500000000 } })).1.gamestate
      = .awaiting_pick := by
  exact ⟨rfl, rfl⟩

/-- C8, amended. `finalizeRound`, on success with a non-null confirmed
amount, overwrites the local balance with `amount / 1000000`, records the
confirmation, and returns it; the phase transitions to `rest` exactly when
`rest` is a legal move from the current phase in the transition table
(i.e. from `playing` or `resolving`), and is otherwise left unchanged.  On
failure, the error is propagated and the session — phase and local balance
included — is left entirely unchanged (no reset to `rest`). -/
theorem c8_finalize_amended (s : RGSState) (net : Except ApiError EndRoundResponse) :
    (∀ e, net = .error e → finalizeRound s net = (s, .error (.api e)))
    ∧ (∀ conf a, net = .ok conf → conf.balance.amount = some a →
      (finalizeRound s net).2 = .ok conf
      ∧ (finalizeRound s net).1.balance = a / 1000000
      ∧ (finalizeRound s net).1.endRoundResponse = some conf
      ∧ (finalizeRound s net).1.gamestate
          = if GameState.rest ∈ validTransitions s.gamestate then .rest
            else s.gamestate) := by
  constructor
  · intro e hnet
    rw [hnet]
    rfl
  · intro conf a hnet hamt
    subst hnet
    unfold finalizeRound setGameState
    by_cases hr : GameState.rest ∈ validTransitions s.gamestate <;>
      simp [hamt, hr]

/-- Witness for the amended C8 at concrete inputs: a failed finalize from a
`resolving` phase changes nothing and surfaces the error; a successful
finalize from a `resolving` phase sets the balance to `500` and the phase
to `rest`. -/
theorem c8_finalize_amended_witness :
    finalizeRound { initialState with gamestate := .resolving } (.error (.other 3))
      = ({ initialState with gamestate := .resolving }, .error (.api (.other 3)))
    ∧ (finalizeRound { initialState with gamestate := .resolving }
          (.ok { balance := { amount := some 500000000 } })).1.balance = 500
    ∧ (finalizeRound { initialState with gamestate := .resolving }
          (.ok { balance := { amount := some 500000000 } })).1.gamestate = .rest := by
  have h1 := (c8_finalize_amended { initialState with gamestate := .resolving }
    (.error (.other 3))).1 (.other 3) rfl
  have h2 := (c8_finalize_amended { initialState with gamestate := .resolving }
    (.ok { balance := { amount := some 500000000 } })).2
    { balance := { amount := some 500000000 } } 500000000 rfl rfl
  refine ⟨h1, ?_, ?_⟩
  · rw [h2.2.1]
    norm_num
  · rw [h2.2.2.2]
    decide

theorem startStage_ok (s : RGSState) (inp : RoundInputs) (pr : PlayResponse)
    (hs : s.gamestate = .rest) (hskip : inp.skipAnimation = false)
    (hnet : inp.netStart = .ok pr) :
    startStage s inp = .ok
      ({ gamestate := .playing
         response := some pr
         endRoundResponse := none
         balance := s.balance - 1
         lastWin := lastWinOf pr 1 },
        some pr, false) := by
  unfold startStage
  rw [hskip, hnet, executeGameRound_rest s 1 (.ok pr) hs]
  rfl

theorem startStage_activeBet (s : RGSState) (inp : RoundInputs)
    (hs : s.gamestate = .rest) (hskip : inp.skipAnimation = false)
    (hnet : inp.netStart = .error .activeBet) :
    startStage s inp = .ok
      ({ s with balance := s.balance - 1, gamestate := .playing }, none, true) := by
  unfold startStage
  rw [hskip, hnet, executeGameRound_rest s 1 (.error .activeBet) hs]
  rfl

theorem setGameState_lastWin (s : RGSState) (n : GameState) :
    (setGameState s n).lastWin = s.lastWin := by
  unfold setGameState
  by_cases h : n ∈ validTransitions s.gamestate <;> simp [h]

/-- C3. On the win path (`payoutMultiplier > 0`), finalize is called
exactly once, the reveal target equals the player's own selection (the
diamond is shown under the picked cup and nowhere else), and the reported
win amount equals `payoutMultiplier * betAmount` with the hard-coded bet of
`1` (e.g. multiplier `0.6` with bet `1` reports `0.6`). -/
theorem c3_win_path (s : RGSState) (inp : RoundInputs) (pr : PlayResponse)
    (r : GameRound) (m : ℚ) (conf : EndRoundResponse)
    (hs : s.gamestate = .rest) (hskip : inp.skipAnimation = false)
    (hforce : inp.forceEndRound = false)
    (hnet : inp.netStart = .ok pr) (hround : pr.round = some r)
    (hm : r.payoutMultiplier = some m) (hpos : 0 < m)
    (hend : inp.netEnd = .ok conf) (hmodal : inp.hasShowWinModal = true) :
    ∃ out, handleGameRound s inp = .ok out
      ∧ out.events.count .finalizeCall = 1
      ∧ Event.showDiamond inp.pickIdx ∈ out.events
      ∧ (∀ j, Event.showDiamond j ∈ out.events → j = inp.pickIdx)
      ∧ Event.showWin (m * 1) ∈ out.events := by
  have hwin : isWin (some pr) = true := by
    simp [isWin, hround, hm, hpos]
  have hlw : lastWinOf pr 1 = m * 1 := by
    simp [lastWinOf, hround, hm]
  unfold handleGameRound
  rw [startStage_ok s inp pr hs hskip hnet]
  unfold pickStage
  rw [hend]
  rcases hAmt : conf.balance.amount with _ | a <;>
    · simp only [hforce, Bool.false_or, hwin, if_true, if_false, finalizeRound,
        hAmt, Option.isSome_some, Option.isSome_none, Bool.false_eq_true,
        hmodal, Bool.and_self, setGameState_lastWin, hlw]
      refine ⟨_, rfl, ?_, ?_, ?_, ?_⟩
      · simp [List.count_cons, List.count_nil, List.count_append]
      · simp
      · intro j hj
        simp at hj
        tauto
      · simp [setGameState, setGameState_lastWin, hlw]

/-- Witness for C3 at concrete inputs: from the initial state, multiplier
`0.6`, bet `1`, pick at cup `1`: finalize is called once, the diamond is
revealed exactly at cup `1`, and the win modal reports `0.6`. -/
theorem c3_win_path_witness :
    ∃ out, handleGameRound initialState
        { skipAnimation := false
          forceEndRound := false
          netStart := .ok { round := some { payoutMultiplier := some (3/5), state := none } }
          pickIdx := 1
          draws := []
          netEnd := .ok { balance := { amount := some 700000000 } }
          hasShowWinModal := true } = .ok out
      ∧ out.events.count .finalizeCall = 1
      ∧ Event.showDiamond 1 ∈ out.events
      ∧ (∀ j, Event.showDiamond j ∈ out.events → j = 1)
      ∧ Event.showWin ((3/5 : ℚ) * 1) ∈ out.events :=
  c3_win_path initialState _ _ _ (3/5) _ rfl rfl rfl rfl rfl rfl (by norm_num) rfl rfl

/-- C4. On the loss path (`payoutMultiplier` zero or absent), finalize
is called zero times, and the reveal target produced by the
rejection-sampling loop is an index in `{0,1,2}` that differs from the
player's selection.  The hypotheses on `draws` say the random stream is
produced by `Math.floor(Math.random() * 3)` (each draw `< 3`) and that the
supplied prefix lets the loop exit (some draw differs from the pick). -/
theorem c4_loss_path (s : RGSState) (inp : RoundInputs) (pr : PlayResponse)
    (r : GameRound)
    (hs : s.gamestate = .rest) (hskip : inp.skipAnimation = false)
    (hforce : inp.forceEndRound = false) (hnet : inp.netStart = .ok pr)
    (hround : pr.round = some r)
    (hm : r.payoutMultiplier = none ∨ r.payoutMultiplier = some 0)
    (hd3 : ∀ d ∈ inp.draws, d < 3)
    (hdiff : ∃ d ∈ inp.draws, d ≠ inp.pickIdx) :
    ∃ out j, handleGameRound s inp = .ok out
      ∧ out.events.count .finalizeCall = 0
      ∧ j < 3 ∧ j ≠ inp.pickIdx
      ∧ Event.showDiamond j ∈ out.events
      ∧ (∀ k, Event.showDiamond k ∈ out.events → k = j) := by
  have hwin : isWin (some pr) = false := by
    rcases hm with hm | hm <;> simp [isWin, hround, hm]
  obtain ⟨d, hdmem, hdne⟩ := hdiff
  have hfind : (inp.draws.find? (fun x => x != inp.pickIdx)).isSome := by
    rw [List.find?_isSome]
    exact ⟨d, hdmem, by simpa using hdne⟩
  obtain ⟨j, hj⟩ := Option.isSome_iff_exists.mp hfind
  have hjne : j ≠ inp.pickIdx := by
    have := List.find?_some hj
    simpa using this
  have hj3 : j < 3 := hd3 j (List.mem_of_find?_eq_some hj)
  unfold handleGameRound
  rw [startStage_ok s inp pr hs hskip hnet]
  unfold pickStage
  have hpo : pickOtherCup inp.pickIdx inp.draws = some j := hj
  simp only [hforce, Bool.false_or, hwin, Bool.false_eq_true, if_false, hpo]
  refine ⟨_, j, rfl, ?_, hj3, hjne, ?_, ?_⟩
  · simp [List.count_cons, List.count_nil]
  · simp
  · intro k hk
    simp at hk
    tauto

/-- Witness for C4 at concrete inputs: multiplier `0`, pick at cup `0`,
random draws `[0, 2]`: the loop skips the colliding draw `0`, reveals at
cup `2`, and finalize is never called. -/
theorem c4_loss_path_witness :
    ∃ out j, handleGameRound initialState
        { skipAnimation := false
          forceEndRound := false
          netStart := .ok { round := some { payoutMultiplier := some 0, state := none } }
          pickIdx := 0
          draws := [0, 2]
          netEnd := .error (.other 1)
          hasShowWinModal := false } = .ok out
      ∧ out.events.count .finalizeCall = 0
      ∧ j < 3 ∧ j ≠ 0
      ∧ Event.showDiamond j ∈ out.events
      ∧ (∀ k, Event.showDiamond k ∈ out.events → k = j) :=
  c4_loss_path initialState _ _ _ rfl rfl rfl rfl rfl (Or.inr rfl)
    (by decide) ⟨2, by decide, by decide⟩

theorem foldl_tap_frozen (taps : List Nat) (c : Nat) (k : Nat) :
    taps.foldl
      (fun p idx =>
        let r := tapStep p.1 idx
        (r.1, p.2 + (if r.2 then 1 else 0)))
      (some c, k) = (some c, k) := by
  induction taps with
  | nil => rfl
  | cons t ts ih => simpa [tapStep] using ih

/-- C5. When the start-round call fails with an error classified as
active-bet, the local balance deduction is not rolled back (the session
entering the pick phase still carries `balance - 1`), the error is not
raised to the caller as fatal (`handleGameRound` returns a result, not an
error), the player still completes exactly one pick (the tap guard accepts
at most one tap from any input sequence), finalize is called exactly once
after the pick, and no container-reveal animation runs (no lift and no
diamond reveal is ever emitted, whatever the finalize outcome). -/
theorem c5_active_bet_recovery (s : RGSState) (inp : RoundInputs)
    (hs : s.gamestate = .rest) (hskip : inp.skipAnimation = false)
    (hnet : inp.netStart = .error .activeBet) :
    (executeGameRound s 1 (.error .activeBet)).1.balance = s.balance - 1
    ∧ (∀ taps : List Nat, (runTaps taps).2 ≤ 1)
    ∧ ∃ out, handleGameRound s inp = .ok out
      ∧ out.events.count .finalizeCall = 1
      ∧ (∀ i, Event.liftCup i ∉ out.events)
      ∧ (∀ i, Event.showDiamond i ∉ out.events) := by
  refine ⟨?_, ?_, ?_⟩
  · rw [executeGameRound_rest s 1 (.error .activeBet) hs]
    rfl
  · intro taps
    cases taps with
    | nil => exact Nat.zero_le 1
    | cons t ts =>
        have h : runTaps (t :: ts) = (some t, 1) := by
          unfold runTaps
          rw [List.foldl_cons]
          exact foldl_tap_frozen ts t 1
        rw [h]
  · unfold handleGameRound
    rw [startStage_activeBet s inp hs hskip hnet]
    unfold pickStage
    rcases hend : inp.netEnd with e | conf <;>
      · simp only [Bool.true_or, if_true, hend, finalizeRound]
        refine ⟨_, rfl, ?_, ?_, ?_⟩ <;> simp [List.count_cons]

/-- Witness for C5 at concrete inputs: an active-bet failure from the
initial state leaves the deducted balance `999` in place, the round is not
fatal, finalize runs once, and no animation events are emitted. -/
theorem c5_active_bet_recovery_witness :
    (executeGameRound initialState 1 (.error .activeBet)).1.balance = 1000 - 1
    ∧ (∀ taps : List Nat, (runTaps taps).2 ≤ 1)
    ∧ ∃ out, handleGameRound initialState
        { skipAnimation := false
          forceEndRound := false
          netStart := .error .activeBet
          pickIdx := 0
          draws := []
          netEnd := .ok { balance := { amount := some 700000000 } }
          hasShowWinModal := false } = .ok out
      ∧ out.events.count .finalizeCall = 1
      ∧ (∀ i, Event.liftCup i ∉ out.events)
      ∧ (∀ i, Event.showDiamond i ∉ out.events) :=
  c5_active_bet_recovery initialState _ rfl rfl rfl

/-- C7. At most one selection is accepted per round: for every sequence
of tap inputs, at most one tap is accepted, and the recorded selection is
the first tap of the sequence — later picks are ignored.  The guard and the
assignment `chosenIdx = idx` are the first statements of the `pointertap`
reaction, before any `await`, and the JavaScript event loop runs that
prefix atomically, which is what makes each tap a single atomic `tapStep`
of this model. -/
theorem c7_single_selection (taps : List Nat) :
    (runTaps taps).2 ≤ 1 ∧ (runTaps taps).1 = taps.head? := by
  cases taps with
  | nil => exact ⟨Nat.zero_le 1, rfl⟩
  | cons t ts =>
      have h : runTaps (t :: ts) = (some t, 1) := by
        unfold runTaps
        rw [List.foldl_cons]
        exact foldl_tap_frozen ts t 1
      rw [h]
      exact ⟨le_refl 1, rfl⟩

theorem finalizeRound_gamestate (s : RGSState)
    (net : Except ApiError EndRoundResponse) :
    (finalizeRound s net).1.gamestate = s.gamestate
    ∨ (finalizeRound s net).1.gamestate = .rest := by
  unfold finalizeRound
  cases net with
  | error e => exact Or.inl rfl
  | ok conf =>
      by_cases hA : conf.balance.amount.isSome
      · simp only [hA, if_true]
        unfold setGameState
        by_cases hr : GameState.rest ∈ validTransitions s.gamestate <;>
          simp [hr]
      · simp [hA]

theorem onRest_rest (s : RGSState)
    (h : s.gamestate = .rest ∨ s.gamestate = .playing) :
    (onRest s).gamestate = .rest := by
  unfold onRest setGameState
  rcases h with h | h <;> simp [h, validTransitions]

theorem startStage_phase (s : RGSState) (inp : RoundInputs)
    (hs : s.gamestate = .rest) (t : RGSState × Option PlayResponse × Bool)
    (h : startStage s inp = .ok t) :
    t.1.gamestate = .rest ∨ t.1.gamestate = .playing := by
  unfold startStage at h
  by_cases hskip : inp.skipAnimation
  · rw [if_pos hskip] at h
    cases h
    exact Or.inl hs
  · rw [if_neg hskip, executeGameRound_rest s 1 inp.netStart hs] at h
    rcases hnet : inp.netStart with e | pr <;> rw [hnet] at h
    · unfold resumeRound at h
      rcases e with _ | code
      · simp only [isActiveBetError, if_true, isActiveBetGameError] at h
        cases h
        exact Or.inr rfl
      · simp only [isActiveBetError, Bool.false_eq_true, if_false,
          isActiveBetGameError, if_neg, not_false_iff] at h
        cases h
    · unfold resumeRound at h
      cases h
      exact Or.inr rfl

theorem pickStage_final_rest (s1 : RGSState) (pro : Option PlayResponse)
    (ab : Bool) (inp : RoundInputs) (sF : RGSState)
    (h1 : s1.gamestate = .rest ∨ s1.gamestate = .playing)
    (h : (pickStage s1 pro ab inp).final = some sF) :
    sF.gamestate = .rest := by
  have h2 : (finalizeRound s1 inp.netEnd).1.gamestate = .rest
      ∨ (finalizeRound s1 inp.netEnd).1.gamestate = .playing := by
    rcases finalizeRound_gamestate s1 inp.netEnd with h' | h'
    · rw [h']
      exact h1
    · exact Or.inl h'
  unfold pickStage at h
  by_cases hab : (ab || inp.forceEndRound) = true
  · rw [if_pos hab] at h
    rcases hfe : finalizeRound s1 inp.netEnd with ⟨s2, r⟩
    rw [hfe] at h h2
    cases r with
    | error e => simp at h
    | ok c =>
        simp only [Option.some_inj] at h
        rw [← h]
        exact onRest_rest s2 h2
  · rw [if_neg hab] at h
    by_cases hw : isWin pro = true
    · rw [if_pos hw] at h
      rcases hfe : finalizeRound s1 inp.netEnd with ⟨s2, r⟩
      rw [hfe] at h h2
      cases r with
      | error e => simp at h
      | ok c =>
          simp only [Option.some_inj] at h
          rw [← h]
          exact onRest_rest s2 h2
    · rw [if_neg hw] at h
      rcases hpo : pickOtherCup inp.pickIdx inp.draws with _ | j <;>
        rw [hpo] at h
      · simp at h
      · simp only [Option.some_inj] at h
        rw [← h]
        exact onRest_rest s1 h1

theorem handleGameRound_final_rest (s : RGSState) (inp : RoundInputs)
    (out : RoundOutcome) (sF : RGSState) (hs : s.gamestate = .rest)
    (hout : handleGameRound s inp = .ok out) (hfin : out.final = some sF) :
    sF.gamestate = .rest := by
  unfold handleGameRound at hout
  rcases hst : startStage s inp with e | t <;> rw [hst] at hout
  · cases hout
  · obtain ⟨s1, pro, ab⟩ := t
    cases hout
    exact pickStage_final_rest s1 pro ab inp sF
      (startStage_phase s inp hs (s1, pro, ab) hst) hfin

/-- C9. After a round completes through `handleGameRound` — whether it
resolved as win, loss, or active-bet recovery — the session phase is
`rest`, `getGameState` returns `rest`, and `canStartPlay` is true, so a new
round may begin.  (The completion collaborator `onRest` is modelled from
the spec, as its implementation is caller code outside the snapshot.) -/
theorem c9_round_returns_to_rest (s : RGSState) (inp : RoundInputs)
    (out : RoundOutcome) (sF : RGSState)
    (hs : s.gamestate = .rest)
    (hout : handleGameRound s inp = .ok out) (hfin : out.final = some sF) :
    sF.gamestate = .rest ∧ getGameState sF = .rest ∧ canStartPlay sF = true := by
  have h := handleGameRound_final_rest s inp out sF hs hout hfin
  exact ⟨h, h, by simp [canStartPlay, h]⟩

/-- Witness for C9 at concrete inputs: a run of `handleGameRound` from the
initial state (skip-animation loss flow, pick at cup `0`, draw `1`)
completes with the session back at `rest` and `canStartPlay` true. -/
theorem c9_round_returns_to_rest_witness :
    ∃ out sF, handleGameRound initialState
        { skipAnimation := true
          forceEndRound := false
          netStart := .error .activeBet
          pickIdx := 0
          draws := [1]
          netEnd := .error (.other 1)
          hasShowWinModal := false } = .ok out
      ∧ out.final = some sF ∧ sF.gamestate = .rest
      ∧ getGameState sF = .rest ∧ canStartPlay sF = true := by
  refine ⟨⟨[.liftCup 0, .lowerCup 0, .liftCup 1, .showDiamond 1,
      .lowerCup 1, .hideDiamond], some initialState⟩, initialState,
    rfl, rfl, ?_⟩
  exact c9_round_returns_to_rest initialState
    { skipAnimation := true
      forceEndRound := false
      netStart := .error .activeBet
      pickIdx := 0
      draws := [1]
      netEnd := .error (.other 1)
      hasShowWinModal := false }
    ⟨[.liftCup 0, .lowerCup 0, .liftCup 1, .showDiamond 1,
        .lowerCup 1, .hideDiamond], some initialState⟩
    initialState rfl rfl rfl

/-- C10. The orchestrated round flow never moves the phase to
`awaiting_pick` or `resolving` (`handleGameRound` invokes none of
`setAwaitingPick`, `startResolving`, `handleLoss`): after a successful
start the session entering the pick handler is at `playing` — so
`canPickCup()` is false at the moment a pick is accepted — and any state
the round completes in is `rest`, never `awaiting_pick` or `resolving`. -/
theorem c10_phase_never_awaiting (s : RGSState) (inp : RoundInputs)
    (pr : PlayResponse)
    (hs : s.gamestate = .rest) (hskip : inp.skipAnimation = false)
    (hnet : inp.netStart = .ok pr) :
    ∃ s1, startStage s inp = .ok (s1, some pr, false)
      ∧ s1.gamestate = .playing
      ∧ canPickCup s1 = false
      ∧ (∀ out sF, handleGameRound s inp = .ok out → out.final = some sF →
          sF.gamestate ≠ .awaiting_pick ∧ sF.gamestate ≠ .resolving) := by
  refine ⟨_, startStage_ok s inp pr hs hskip hnet, rfl, rfl, ?_⟩
  intro out sF hout hfin
  have h := handleGameRound_final_rest s inp out sF hs hout hfin
  rw [h]
  exact ⟨by simp, by simp⟩

/-- Witness for C10 at concrete inputs: a successful start from the
initial state hands the pick handler a `playing` session in which
`canPickCup` is false, and the completed round's final phase is neither
`awaiting_pick` nor `resolving`. -/
theorem c10_phase_never_awaiting_witness :
    ∃ s1, startStage initialState
        { skipAnimation := false
          forceEndRound := false
          netStart := .ok { round := some { payoutMultiplier := some 0, state := none } }
          pickIdx := 0
          draws := [1]
          netEnd := .error (.other 1)
          hasShowWinModal := false }
        = .ok (s1, some { round := some { payoutMultiplier := some 0, state := none } }, false)
      ∧ s1.gamestate = .playing
      ∧ canPickCup s1 = false
      ∧ (∀ out sF, handleGameRound initialState
            { skipAnimation := false
              forceEndRound := false
              netStart := .ok { round := some { payoutMultiplier := some 0, state := none } }
              pickIdx := 0
              draws := [1]
              netEnd := .error (.other 1)
              hasShowWinModal := false } = .ok out → out.final = some sF →
          sF.gamestate ≠ .awaiting_pick ∧ sF.gamestate ≠ .resolving) :=
  c10_phase_never_awaiting initialState _ _ rfl rfl rfl

end CoinPurse
